import Mathlib

/-!
Verification of the year-bucket accumulator of `laser_cooled_molecules`
(`src/laser_cooled_molecules/lcm.py`), together with the stacked-series
computation of `main`.

The Python iterators `yit`/`mit` are modelled as the lists of their remaining
elements.  `next` on an exhausted iterator raises `StopIteration`; the two
unguarded initial `next` calls of `accumulate_by_year` therefore surface as
explicit error values, as does the `RuntimeError` raised when the year
iterator is exhausted inside the loop.
-/

/-- `datetime.date`: only `year` takes part in comparisons in this program. -/
structure PyDate where
  year : Nat
  month : Nat
  day : Nat
deriving DecidableEq, Repr

/-- `@dataclass class Molecule`: name and date of first laser cooling. -/
structure Molecule where
  name : String
  date : PyDate
deriving DecidableEq, Repr

/-- The ways `accumulate_by_year` can fail:
* `emptyYears` — `StopIteration` from the initial `out_year = next(yit)`;
* `emptyMolecules` — `StopIteration` from the initial `molecule = next(mit)`;
* `endOfYears` — `RuntimeError("End of years before end of molecules.")`. -/
inductive AccErr where
  | emptyYears
  | emptyMolecules
  | endOfYears
deriving DecidableEq, Repr

/-- The `while True` loop of `accumulate_by_year`.  State: the current year
`out_year`, the years remaining in the iterator `ys`, the current `molecule`,
the molecules remaining in the iterator `ms`, and `counter`.  The emitted
list `mol_cnt_accumulated` is produced in emission order on the return path
(a cons at each append).  On `StopIteration` from `next(mit)` the loop emits
`counter` once for the current year and once for every remaining year, then
breaks. -/
def accLoop (out_year : Nat) (ys : List Nat) (molecule : Molecule)
    (ms : List Molecule) (counter : Nat) : Except AccErr (List Nat) :=
  if out_year < molecule.date.year then
    match ys with
    | [] => .error .endOfYears
    | y :: ys1 =>
      (accLoop y ys1 molecule ms counter).map (fun rest => counter :: rest)
  else
    match ms with
    | [] => .ok ((counter + 1) :: ys.map (fun _ => counter + 1))
    | m :: ms1 => accLoop out_year ys m ms1 (counter + 1)
termination_by ys.length + ms.length
decreasing_by
  · simp_arith
  · simp_arith

/-- `accumulate_by_year(yit, mit)`: the two initial `next` calls, then the
loop. -/
def accumulate_by_year (yit : List Nat) (mit : List Molecule) :
    Except AccErr (List Nat) :=
  match yit with
  | [] => .error .emptyYears
  | out_year :: ys =>
    match mit with
    | [] => .error .emptyMolecules
    | molecule :: ms => accLoop out_year ys molecule ms 0

/-- The number of records in `mit` whose year is at most `y` (the value the
spec says bucket `y` must hold). -/
def countLE (mit : List Molecule) (y : Nat) : Nat :=
  (mit.filter (fun m => decide (m.date.year ≤ y))).length

/-- The ordering the spec imposes on the record sequence: ascending by year. -/
def yearLE (a b : Molecule) : Prop :=
  a.date.year ≤ b.date.year

instance : DecidableRel yearLE := fun a b => by
  unfold yearLE; infer_instance

/-! ## The catalog and the computation of `main` -/

/-- The hardcoded `diatomics` list of `lcm.py`. -/
def diatomics : List Molecule := [
  ⟨"SrF", ⟨2010, 9, 19⟩⟩,
  ⟨"YO", ⟨2013, 4, 1⟩⟩,
  ⟨"CaF", ⟨2014, 5, 16⟩⟩,
  ⟨"YbF", ⟨2018, 3, 22⟩⟩,
  ⟨"BaH", ⟨2020, 8, 18⟩⟩,
  ⟨"CaH", ⟨2022, 8, 9⟩⟩,
  ⟨"BaF", ⟨2022, 3, 14⟩⟩,
  ⟨"CaD", ⟨2024, 8, 5⟩⟩]

/-- The hardcoded `triatomics` list of `lcm.py`. -/
def triatomics : List Molecule := [
  ⟨"SrOH", ⟨2017, 4, 24⟩⟩,
  ⟨"YbOH", ⟨2020, 2, 19⟩⟩,
  ⟨"CaOH", ⟨2020, 3, 31⟩⟩]

/-- The hardcoded `polyatomics` list of `lcm.py`. -/
def polyatomics : List Molecule := [
  ⟨"CaOCH$_3$", ⟨2020, 9, 11⟩⟩]

/-- Python `min` over a list; raises `ValueError` on `[]`, which `main` never
hits (the catalog is non-empty), so the `[]` case is an arbitrary default. -/
def listMin : List Nat → Nat
  | [] => 0
  | x :: xs => xs.foldl min x

/-- Python `max` over a list, same convention as `listMin`. -/
def listMax : List Nat → Nat
  | [] => 0
  | x :: xs => xs.foldl max x

/-- `np.arange(start, stop, 1)` on integers, for `start ≤ stop`. -/
def arange (start stop : Nat) : List Nat :=
  List.range' start (stop - start)

/-- `timeline` in `main`: the year of every catalog record. -/
def timeline : List Nat :=
  (diatomics ++ triatomics ++ polyatomics).map (fun m => m.date.year)

/-- `years` in `main`: `np.arange(min(timeline)-1, max(timeline)+2, 1)`. -/
def years : List Nat :=
  arange (listMin timeline - 1) (listMax timeline + 2)

/-- Unwrap a loop result in `main`, where the error cases are unreachable
(proved in the claim about `main`); `[]` stands for the unreached raise. -/
def okD : Except AccErr (List Nat) → List Nat
  | .ok l => l
  | .error _ => []

/-- `diatomics_by_year` in `main`. -/
def diatomics_by_year : List Nat :=
  okD (accumulate_by_year years diatomics)

/-- `triatomics_by_year` in `main`. -/
def triatomics_by_year : List Nat :=
  okD (accumulate_by_year years triatomics)

/-- `polyatomics_by_year` in `main`. -/
def polyatomics_by_year : List Nat :=
  okD (accumulate_by_year years polyatomics)

/-- `di_and_tri_by_year = [t + d for t, d in zip(triatomics_by_year,
diatomics_by_year)]` in `main`. -/
def di_and_tri_by_year : List Nat :=
  List.zipWith (· + ·) triatomics_by_year diatomics_by_year

/-- `all_by_year = [dt + p for dt, p in zip(di_and_tri_by_year,
polyatomics_by_year)]` in `main`. -/
def all_by_year : List Nat :=
  List.zipWith (· + ·) di_and_tri_by_year polyatomics_by_year

/-! ## Concrete evaluations of the `main` computation -/

theorem years_eval : years = [2009, 2010, 2011, 2012, 2013, 2014, 2015, 2016,
    2017, 2018, 2019, 2020, 2021, 2022, 2023, 2024, 2025] := by
  decide

theorem diatomics_acc_eval : accumulate_by_year years diatomics =
    .ok [0, 1, 1, 1, 2, 3, 3, 3, 3, 4, 4, 5, 5, 7, 7, 8, 8] := by
  rw [years_eval]
  simp [accumulate_by_year, accLoop, Except.map, diatomics]

theorem triatomics_acc_eval : accumulate_by_year years triatomics =
    .ok [0, 0, 0, 0, 0, 0, 0, 0, 1, 1, 1, 3, 3, 3, 3, 3, 3] := by
  rw [years_eval]
  simp [accumulate_by_year, accLoop, Except.map, triatomics]

theorem polyatomics_acc_eval : accumulate_by_year years polyatomics =
    .ok [0, 0, 0, 0, 0, 0, 0, 0, 0, 0, 0, 1, 1, 1, 1, 1, 1] := by
  rw [years_eval]
  simp [accumulate_by_year, accLoop, Except.map, polyatomics]

theorem diatomics_by_year_eval : diatomics_by_year =
    [0, 1, 1, 1, 2, 3, 3, 3, 3, 4, 4, 5, 5, 7, 7, 8, 8] := by
  rw [diatomics_by_year, diatomics_acc_eval]; rfl

theorem triatomics_by_year_eval : triatomics_by_year =
    [0, 0, 0, 0, 0, 0, 0, 0, 1, 1, 1, 3, 3, 3, 3, 3, 3] := by
  rw [triatomics_by_year, triatomics_acc_eval]; rfl

theorem polyatomics_by_year_eval : polyatomics_by_year =
    [0, 0, 0, 0, 0, 0, 0, 0, 0, 0, 0, 1, 1, 1, 1, 1, 1] := by
  rw [polyatomics_by_year, polyatomics_acc_eval]; rfl

theorem di_and_tri_by_year_eval : di_and_tri_by_year =
    [0, 1, 1, 1, 2, 3, 3, 3, 4, 5, 5, 8, 8, 10, 10, 11, 11] := by
  rw [di_and_tri_by_year, diatomics_by_year_eval, triatomics_by_year_eval]
  decide

theorem all_by_year_eval : all_by_year =
    [0, 1, 1, 1, 2, 3, 3, 3, 4, 5, 5, 9, 9, 11, 11, 12, 12] := by
  rw [all_by_year, di_and_tri_by_year_eval, polyatomics_by_year_eval]
  decide

/-! ## Structural properties of the accumulator loop -/

/-- Every normal return of the loop emits exactly one bucket per year still
available (the current year plus the remaining iterator). -/
theorem accLoop_ok_length (out_year : Nat) (ys : List Nat) (molecule : Molecule)
    (ms : List Molecule) (counter : Nat) :
    ∀ C, accLoop out_year ys molecule ms counter = .ok C →
      C.length = ys.length + 1 := by
  induction out_year, ys, molecule, ms, counter using accLoop.induct with
  | case1 out_year molecule ms counter hlt =>
    intro C h
    rw [accLoop.eq_def] at h
    simp [hlt] at h
  | case2 out_year molecule ms counter hlt y ys1 ih =>
    intro C h
    rw [accLoop.eq_def] at h
    simp only [if_pos hlt] at h
    cases hrec : accLoop y ys1 molecule ms counter with
    | error e => simp [hrec, Except.map] at h
    | ok rest =>
      simp [hrec, Except.map] at h
      subst h
      simp [ih rest hrec]
  | case3 out_year ys molecule counter hge =>
    intro C h
    rw [accLoop.eq_def] at h
    simp [hge] at h
    subst h
    simp
  | case4 out_year ys molecule counter hge m ms1 ih =>
    intro C h
    rw [accLoop.eq_def] at h
    simp only [if_neg hge] at h
    exact ih C h

/-- On a normal return the final emitted bucket equals the running counter
plus one increment per molecule still to be consumed. -/
theorem accLoop_ok_getLast (out_year : Nat) (ys : List Nat) (molecule : Molecule)
    (ms : List Molecule) (counter : Nat) :
    ∀ C, accLoop out_year ys molecule ms counter = .ok C →
      C.getLast? = some (counter + ms.length + 1) := by
  induction out_year, ys, molecule, ms, counter using accLoop.induct with
  | case1 out_year molecule ms counter hlt =>
    intro C h
    rw [accLoop.eq_def] at h
    simp [hlt] at h
  | case2 out_year molecule ms counter hlt y ys1 ih =>
    intro C h
    rw [accLoop.eq_def] at h
    simp only [if_pos hlt] at h
    cases hrec : accLoop y ys1 molecule ms counter with
    | error e => simp [hrec, Except.map] at h
    | ok rest =>
      simp [hrec, Except.map] at h
      subst h
      cases hr : rest with
      | nil =>
        have := accLoop_ok_length y ys1 molecule ms counter rest hrec
        simp [hr] at this
      | cons r rs =>
        rw [List.getLast?_cons_cons]
        rw [← hr]
        exact ih rest hrec
  | case3 out_year ys molecule counter hge =>
    intro C h
    rw [accLoop.eq_def] at h
    simp [hge] at h
    subst h
    rw [← List.replicate_succ, List.getLast?_replicate]
    simp
  | case4 out_year ys molecule counter hge m ms1 ih =>
    intro C h
    rw [accLoop.eq_def] at h
    simp only [if_neg hge] at h
    have := ih C h
    rw [this]
    congr 1
    simp
    omega

/-- On a normal return the emitted buckets are pairwise non-decreasing and
bounded below by the running counter. -/
theorem accLoop_ok_pairwise (out_year : Nat) (ys : List Nat) (molecule : Molecule)
    (ms : List Molecule) (counter : Nat) :
    ∀ C, accLoop out_year ys molecule ms counter = .ok C →
      List.Pairwise (· ≤ ·) C ∧ ∀ x ∈ C, counter ≤ x := by
  induction out_year, ys, molecule, ms, counter using accLoop.induct with
  | case1 out_year molecule ms counter hlt =>
    intro C h
    rw [accLoop.eq_def] at h
    simp [hlt] at h
  | case2 out_year molecule ms counter hlt y ys1 ih =>
    intro C h
    rw [accLoop.eq_def] at h
    simp only [if_pos hlt] at h
    cases hrec : accLoop y ys1 molecule ms counter with
    | error e => simp [hrec, Except.map] at h
    | ok rest =>
      simp [hrec, Except.map] at h
      subst h
      obtain ⟨hpw, hmem⟩ := ih rest hrec
      refine ⟨List.pairwise_cons.mpr ⟨hmem, hpw⟩, ?_⟩
      intro x hx
      rcases List.mem_cons.mp hx with rfl | hx1
      · exact le_refl _
      · exact hmem x hx1
  | case3 out_year ys molecule counter hge =>
    intro C h
    rw [accLoop.eq_def] at h
    simp [hge] at h
    subst h
    constructor
    · rw [← List.replicate_succ]
      exact List.pairwise_replicate.mpr (Or.inr (le_refl _))
    · intro x hx
      rcases List.mem_cons.mp hx with rfl | hx1
      · exact Nat.le_succ _
      · rw [List.eq_of_mem_replicate hx1]
        exact Nat.le_succ _
  | case4 out_year ys molecule counter hge m ms1 ih =>
    intro C h
    rw [accLoop.eq_def] at h
    simp only [if_neg hge] at h
    obtain ⟨hpw, hmem⟩ := ih C h
    exact ⟨hpw, fun x hx => le_trans (Nat.le_succ _) (hmem x hx)⟩

/-- If some unconsumed record's year is beyond every year still available,
the loop raises the `RuntimeError` (years exhaust before molecules). -/
theorem accLoop_error_of_beyond (out_year : Nat) (ys : List Nat) (molecule : Molecule)
    (ms : List Molecule) (counter : Nat) :
    (∃ m ∈ molecule :: ms, ∀ y ∈ out_year :: ys, y < m.date.year) →
    accLoop out_year ys molecule ms counter = .error .endOfYears := by
  induction out_year, ys, molecule, ms, counter using accLoop.induct with
  | case1 out_year molecule ms counter hlt =>
    intro _
    rw [accLoop.eq_def]
    simp [hlt]
  | case2 out_year molecule ms counter hlt y ys1 ih =>
    rintro ⟨m, hmem, hall⟩
    rw [accLoop.eq_def]
    simp only [if_pos hlt]
    have hrec : accLoop y ys1 molecule ms counter = .error .endOfYears :=
      ih ⟨m, hmem, fun z hz => hall z (List.mem_cons_of_mem _ hz)⟩
    rw [hrec]
    rfl
  | case3 out_year ys molecule counter hge =>
    rintro ⟨m, hmem, hall⟩
    rcases List.mem_cons.mp hmem with rfl | hm
    · exact absurd (hall out_year (List.mem_cons_self _ _)) hge
    · simp at hm
  | case4 out_year ys molecule counter hge m1 ms1 ih =>
    rintro ⟨m, hmem, hall⟩
    rw [accLoop.eq_def]
    simp only [if_neg hge]
    rcases List.mem_cons.mp hmem with rfl | hm
    · exact absurd (hall out_year (List.mem_cons_self _ _)) hge
    · exact ih ⟨m, hm, hall⟩

/-- If every unconsumed record's year is at most the final year of the
sequence, the loop returns normally. -/
theorem accLoop_ok_of_le (out_year : Nat) (ys : List Nat) (molecule : Molecule)
    (ms : List Molecule) (counter : Nat) :
    (∀ m ∈ molecule :: ms, m.date.year ≤ ys.getLastD out_year) →
    ∃ C, accLoop out_year ys molecule ms counter = .ok C := by
  induction out_year, ys, molecule, ms, counter using accLoop.induct with
  | case1 out_year molecule ms counter hlt =>
    intro hall
    have := hall molecule (List.mem_cons_self _ _)
    simp [List.getLastD] at this
    omega
  | case2 out_year molecule ms counter hlt y ys1 ih =>
    intro hall
    have hall1 : ∀ m ∈ molecule :: ms, m.date.year ≤ ys1.getLastD y := by
      intro m hm
      have hh := hall m hm
      rwa [List.getLastD_cons] at hh
    obtain ⟨C, hC⟩ := ih hall1
    refine ⟨counter :: C, ?_⟩
    rw [accLoop.eq_def]
    simp only [if_pos hlt]
    rw [hC]
    rfl
  | case3 out_year ys molecule counter hge =>
    intro _
    refine ⟨(counter + 1) :: ys.map (fun _ => counter + 1), ?_⟩
    rw [accLoop.eq_def]
    simp [hge]
  | case4 out_year ys molecule counter hge m1 ms1 ih =>
    intro hall
    obtain ⟨C, hC⟩ := ih (fun m hm => hall m (List.mem_cons_of_mem _ hm))
    exact ⟨C, by rw [accLoop.eq_def]; simp only [if_neg hge]; exact hC⟩

/-- On sorted inputs, each emitted bucket is the running counter plus the
number of unconsumed records dated at or before that bucket's year. -/
theorem accLoop_ok_count (out_year : Nat) (ys : List Nat) (molecule : Molecule)
    (ms : List Molecule) (counter : Nat) :
    List.Pairwise (· ≤ ·) (out_year :: ys) →
    List.Pairwise yearLE (molecule :: ms) →
    ∀ C, accLoop out_year ys molecule ms counter = .ok C →
      C = (out_year :: ys).map (fun y => counter + countLE (molecule :: ms) y) := by
  induction out_year, ys, molecule, ms, counter using accLoop.induct with
  | case1 out_year molecule ms counter hlt =>
    intro _ _ C h
    rw [accLoop.eq_def] at h
    simp [hlt] at h
  | case2 out_year molecule ms counter hlt y ys1 ih =>
    intro hY hM C h
    rw [accLoop.eq_def] at h
    simp only [if_pos hlt] at h
    cases hrec : accLoop y ys1 molecule ms counter with
    | error e => simp [hrec, Except.map] at h
    | ok rest =>
      simp [hrec, Except.map] at h
      subst h
      have hrest := ih hY.of_cons hM rest hrec
      rw [hrest]
      simp only [List.map_cons]
      congr 1
      have hzero : countLE (molecule :: ms) out_year = 0 := by
        unfold countLE
        rw [List.length_eq_zero, List.filter_eq_nil_iff]
        intro m hm
        rcases List.mem_cons.mp hm with rfl | hm1
        · simpa using Nat.not_le.mpr hlt
        · have h1 : molecule.date.year ≤ m.date.year :=
            (List.pairwise_cons.mp hM).1 m hm1
          simp only [decide_eq_true_eq]
          omega
      omega
  | case3 out_year ys molecule counter hge =>
    intro hY hM C h
    rw [accLoop.eq_def] at h
    simp [hge] at h
    subst h
    have hmol : molecule.date.year ≤ out_year := Nat.not_lt.mp hge
    simp only [List.map_cons]
    have hone : ∀ z, out_year ≤ z → countLE [molecule] z = 1 := by
      intro z hz
      unfold countLE
      simp [List.filter_cons, le_trans hmol hz]
    congr 1
    · rw [hone out_year (le_refl _)]
    · have hmem : ∀ z ∈ ys, out_year ≤ z := fun z hz => List.rel_of_pairwise_cons hY hz
      rw [← List.map_const']
      apply List.map_congr_left
      intro z hz
      rw [hone z (hmem z hz)]
  | case4 out_year ys molecule counter hge m1 ms1 ih =>
    intro hY hM C h
    rw [accLoop.eq_def] at h
    simp only [if_neg hge] at h
    have hrec := ih hY hM.of_cons C h
    rw [hrec]
    apply List.map_congr_left
    intro z hz
    have hz1 : out_year ≤ z := by
      rcases List.mem_cons.mp hz with rfl | hz2
      · exact le_refl _
      · exact List.rel_of_pairwise_cons hY hz2
    have hmol : molecule.date.year ≤ z := le_trans (Nat.not_lt.mp hge) hz1
    have hsplit : countLE (molecule :: m1 :: ms1) z = countLE (m1 :: ms1) z + 1 := by
      unfold countLE
      rw [List.filter_cons, decide_eq_true hmol]
      simp
    rw [hsplit]
    omega

/-! ## Helper lemmas about sorted lists -/

/-- In a list sorted by a key, every element's key is at most the last
element's key. -/
theorem sorted_key_le_getLastD {α : Type} (f : α → Nat) :
    ∀ (x : α) (l : List α), List.Pairwise (fun a b => f a ≤ f b) (x :: l) →
      ∀ a ∈ x :: l, f a ≤ f (l.getLastD x) := by
  intro x l
  induction l generalizing x with
  | nil =>
    intro _ a ha
    rcases List.mem_cons.mp ha with rfl | h0
    · exact le_refl _
    · simp at h0
  | cons y t ih =>
    intro hpw a ha
    rw [List.getLastD_cons]
    rcases List.mem_cons.mp ha with rfl | h0
    · exact le_trans ((List.pairwise_cons.mp hpw).1 y (List.mem_cons_self _ _))
        (ih y hpw.of_cons y (List.mem_cons_self _ _))
    · exact ih y hpw.of_cons a h0

/-- In a sorted list of years, every year is at most the last one. -/
theorem nat_sorted_le_getLastD (x : Nat) (l : List Nat)
    (h : List.Pairwise (· ≤ ·) (x :: l)) :
    ∀ a ∈ x :: l, a ≤ l.getLastD x :=
  sorted_key_le_getLastD (fun n => n) x l h

/-- In a year-sorted list of records, every record's year is at most the last
record's year. -/
theorem mol_sorted_le_getLastD (x : Molecule) (l : List Molecule)
    (h : List.Pairwise yearLE (x :: l)) :
    ∀ a ∈ x :: l, a.date.year ≤ (l.getLastD x).date.year := by
  have h2 : List.Pairwise (fun a b : Molecule => a.date.year ≤ b.date.year)
      (x :: l) := h.imp (fun hab => hab)
  exact sorted_key_le_getLastD (fun m => m.date.year) x l h2

/-- Reading a pairwise-nondecreasing list at two ordered positions preserves
the order. -/
theorem pairwise_getD_le {l : List Nat} (h : List.Pairwise (· ≤ ·) l)
    {i j : Nat} (hij : i ≤ j) (hj : j < l.length) :
    l.getD i 0 ≤ l.getD j 0 := by
  rcases Nat.lt_or_ge i j with hlt | hge
  · rw [List.getD_eq_getElem l 0 (lt_trans hlt hj), List.getD_eq_getElem l 0 hj]
    exact List.pairwise_iff_getElem.mp h i j (lt_trans hlt hj) hj hlt
  · have : i = j := le_antisymm hij hge
    rw [this]

/-- A year sequence with constant step 1 is sorted. -/
theorem chain_step_pairwise {Y : List Nat}
    (h : List.Chain' (fun a b => b = a + 1) Y) :
    List.Pairwise (· ≤ ·) Y := by
  rw [← List.chain'_iff_pairwise]
  exact h.imp (fun hab => by omega)

/-! ## Claims -/

/-- C1: for every ascending year sequence `Y` with constant step 1 and every
non-empty ascending-by-year record sequence `M` whose first record's year is
at least `Y[0]` and whose last record's year is at most `Y[-1]`,
`accumulate_by_year(Y, M)` returns the sequence of length `len(Y)` whose
`i`-th entry is the number of records in `M` with year at most `Y[i]`. -/
theorem claim_C1_accumulate_counts (y0 : Nat) (ys : List Nat) (m0 : Molecule)
    (ms : List Molecule)
    (hstep : List.Chain' (fun a b => b = a + 1) (y0 :: ys))
    (hM : List.Pairwise yearLE (m0 :: ms))
    (hfirst : y0 ≤ m0.date.year)
    (hlast : (ms.getLastD m0).date.year ≤ ys.getLastD y0) :
    accumulate_by_year (y0 :: ys) (m0 :: ms) =
      .ok ((y0 :: ys).map (fun y => countLE (m0 :: ms) y)) := by
  have hY : List.Pairwise (· ≤ ·) (y0 :: ys) := chain_step_pairwise hstep
  have hall : ∀ m ∈ m0 :: ms, m.date.year ≤ ys.getLastD y0 :=
    fun m hm => le_trans (mol_sorted_le_getLastD m0 ms hM m hm) hlast
  obtain ⟨C, hC⟩ := accLoop_ok_of_le y0 ys m0 ms 0 hall
  have hcount := accLoop_ok_count y0 ys m0 ms 0 hY hM C hC
  show accLoop y0 ys m0 ms 0 = _
  rw [hC, hcount]
  simp only [Nat.zero_add]

theorem claim_C1_witness :
    accumulate_by_year [2009, 2010, 2011, 2012, 2013]
      [⟨"SrF", ⟨2010, 9, 19⟩⟩, ⟨"YO", ⟨2013, 4, 1⟩⟩] = .ok [0, 1, 1, 1, 2] := by
  have h := claim_C1_accumulate_counts 2009 [2010, 2011, 2012, 2013]
    ⟨"SrF", ⟨2010, 9, 19⟩⟩ [⟨"YO", ⟨2013, 4, 1⟩⟩]
    (by simp [List.chain'_cons]) (by decide) (by decide) (by decide)
  rw [h]
  rfl

/-- C2 (amended): whenever `accumulate_by_year(Y, M)` returns a sequence, it
has the same length as `Y`; the original claim fails for an empty `M`
because the unguarded initial `next(mit)` raises instead of returning. -/
theorem claim_C2_length_of_ok (Y : List Nat) (M : List Molecule) (C : List Nat)
    (h : accumulate_by_year Y M = .ok C) : C.length = Y.length := by
  cases Y with
  | nil => simp [accumulate_by_year] at h
  | cons y0 ys =>
    cases M with
    | nil => simp [accumulate_by_year] at h
    | cons m0 ms =>
      have hlen := accLoop_ok_length y0 ys m0 ms 0 C h
      simpa using hlen

theorem claim_C2_witness :
    ([0, 1] : List Nat).length = ([2020, 2021] : List Nat).length :=
  claim_C2_length_of_ok [2020, 2021] [⟨"X", ⟨2021, 1, 1⟩⟩] [0, 1]
    (by simp [accumulate_by_year, accLoop, Except.map])

/-- C2 counterexample: for the input with an empty record sequence the
function raises instead of returning, so the claim's quantification over all
inputs (explicitly including empty `M`) fails: no sequence is returned. -/
theorem claim_C2_counterexample :
    ¬ ∃ C, accumulate_by_year [2019] ([] : List Molecule) = .ok C := by
  rintro ⟨C, hC⟩
  simp [accumulate_by_year] at hC

/-- C3 (amended): for an empty record sequence and any non-empty year
sequence, `accumulate_by_year` raises `StopIteration` from the unguarded
initial `next(mit)` instead of returning a list of zeros. -/
theorem claim_C3_empty_records_raises (y : Nat) (ys : List Nat) :
    accumulate_by_year (y :: ys) [] = .error .emptyMolecules :=
  rfl

/-- C3 counterexample: `accumulate_by_year([2020, 2021], [])` does not return
`[0, 0]`; it raises (`StopIteration` from the initial `next(mit)`). -/
theorem claim_C3_counterexample :
    accumulate_by_year [2020, 2021] ([] : List Molecule) ≠ .ok [0, 0] := by
  simp [accumulate_by_year]

/-- C4: for a non-empty ascending record sequence containing a record beyond
the last supplied year, `accumulate_by_year` fails with the exhaustion error
(`RuntimeError("End of years before end of molecules.")`). -/
theorem claim_C4_raises_on_record_beyond_years (Y : List Nat)
    (M : List Molecule) (hY : Y ≠ [])
    (hYsorted : List.Pairwise (· ≤ ·) Y)
    (hM : M ≠ []) (hMsorted : List.Pairwise yearLE M)
    (hbeyond : ∃ m ∈ M, Y.getLastD 0 < m.date.year) :
    accumulate_by_year Y M = .error .endOfYears := by
  cases Y with
  | nil => exact absurd rfl hY
  | cons y0 ys =>
    cases M with
    | nil => exact absurd rfl hM
    | cons m0 ms =>
      obtain ⟨m, hmem, hgt⟩ := hbeyond
      rw [List.getLastD_cons] at hgt
      show accLoop y0 ys m0 ms 0 = _
      exact accLoop_error_of_beyond y0 ys m0 ms 0
        ⟨m, hmem, fun z hz =>
          lt_of_le_of_lt (nat_sorted_le_getLastD y0 ys hYsorted z hz) hgt⟩

theorem claim_C4_witness :
    accumulate_by_year [2020, 2021] [⟨"X", ⟨2022, 1, 1⟩⟩] =
      .error .endOfYears :=
  claim_C4_raises_on_record_beyond_years [2020, 2021] [⟨"X", ⟨2022, 1, 1⟩⟩]
    (by decide) (by decide) (by decide) (by decide) (by decide)

/-- C5 (amended): when the first record's year precedes the first supplied
year, `accumulate_by_year` does not report an error: provided every record's
year is at most the last supplied year, it returns a result (the early
records are simply counted from the first bucket on). -/
theorem claim_C5_no_error_on_early_record (y0 : Nat) (ys : List Nat)
    (m0 : Molecule) (ms : List Molecule)
    (hviol : m0.date.year < y0)
    (hall : ∀ m ∈ m0 :: ms, m.date.year ≤ ys.getLastD y0) :
    ∃ C, accumulate_by_year (y0 :: ys) (m0 :: ms) = .ok C :=
  accLoop_ok_of_le y0 ys m0 ms 0 hall

theorem claim_C5_witness :
    ∃ C, accumulate_by_year [2010, 2011] [⟨"X", ⟨2009, 1, 1⟩⟩] = .ok C :=
  claim_C5_no_error_on_early_record 2010 [2011] ⟨"X", ⟨2009, 1, 1⟩⟩ []
    (by decide) (by decide)

/-- C5 counterexample: with `Y = [2010, 2011]` and a single record dated
2009 (before `Y[0]`), the function returns `[1, 1]` — it does not report an
error. -/
theorem claim_C5_counterexample :
    accumulate_by_year [2010, 2011] [⟨"X", ⟨2009, 1, 1⟩⟩] = .ok [1, 1] := by
  simp [accumulate_by_year, accLoop, Except.map]

/-- C6: whenever `accumulate_by_year(Y, M)` returns a result, that result is
non-decreasing: entries at indices `i ≤ j` satisfy `C[i] ≤ C[j]`. -/
theorem claim_C6_monotone (Y : List Nat) (M : List Molecule) (C : List Nat)
    (h : accumulate_by_year Y M = .ok C) (i j : Nat) (hij : i ≤ j)
    (hj : j < C.length) : C.getD i 0 ≤ C.getD j 0 := by
  cases Y with
  | nil => simp [accumulate_by_year] at h
  | cons y0 ys =>
    cases M with
    | nil => simp [accumulate_by_year] at h
    | cons m0 ms =>
      exact pairwise_getD_le (accLoop_ok_pairwise y0 ys m0 ms 0 C h).1 hij hj

theorem claim_C6_witness :
    ([1, 1] : List Nat).getD 0 0 ≤ ([1, 1] : List Nat).getD 1 0 :=
  claim_C6_monotone [2020, 2021] [⟨"X", ⟨2020, 1, 1⟩⟩] [1, 1]
    (by simp [accumulate_by_year, accLoop, Except.map]) 0 1
    (by decide) (by decide)

/-- C7 (amended): whenever the record sequence is non-empty (and the year
sequence is non-empty) and every record's year is at most the last year,
`accumulate_by_year` returns and its last element is the total record count;
the original claim fails for an empty `M`, where the function raises instead
of returning. -/
theorem claim_C7_last_is_total_count (Y : List Nat) (M : List Molecule)
    (hY : Y ≠ []) (hM : M ≠ [])
    (hall : ∀ m ∈ M, m.date.year ≤ Y.getLastD 0) :
    ∃ C, accumulate_by_year Y M = .ok C ∧ C.getLast? = some M.length := by
  cases Y with
  | nil => exact absurd rfl hY
  | cons y0 ys =>
    cases M with
    | nil => exact absurd rfl hM
    | cons m0 ms =>
      have hall1 : ∀ m ∈ m0 :: ms, m.date.year ≤ ys.getLastD y0 := by
        intro m hm
        have hh := hall m hm
        rwa [List.getLastD_cons] at hh
      obtain ⟨C, hC⟩ := accLoop_ok_of_le y0 ys m0 ms 0 hall1
      refine ⟨C, hC, ?_⟩
      rw [accLoop_ok_getLast y0 ys m0 ms 0 C hC]
      simp [Nat.add_comm]

theorem claim_C7_witness :
    ∃ C, accumulate_by_year [2020] [⟨"X", ⟨2019, 1, 1⟩⟩] = .ok C ∧
      C.getLast? = some 1 :=
  claim_C7_last_is_total_count [2020] [⟨"X", ⟨2019, 1, 1⟩⟩]
    (by decide) (by decide) (by decide)

/-- C7 counterexample: with `M` empty, every record's year is vacuously at
most `Y[-1]` and `len(M) = 0`, yet the function raises instead of returning a
sequence ending in 0. -/
theorem claim_C7_counterexample :
    ¬ ∃ C, accumulate_by_year [2022] ([] : List Molecule) = .ok C ∧
      C.getLast? = some 0 := by
  rintro ⟨C, hC, _⟩
  simp [accumulate_by_year] at hC

/-- C8: two records sharing year 2020 each contribute their own increment:
for `Y = [2019, 2020, 2021]` the result is `[0, 2, 2]`, whatever the records'
names and within-year dates. -/
theorem claim_C8_duplicate_years (n1 n2 : String) (d1 d2 : PyDate)
    (h1 : d1.year = 2020) (h2 : d2.year = 2020) :
    accumulate_by_year [2019, 2020, 2021] [⟨n1, d1⟩, ⟨n2, d2⟩] =
      .ok [0, 2, 2] := by
  simp [accumulate_by_year, accLoop, Except.map, h1, h2]

theorem claim_C8_witness :
    accumulate_by_year [2019, 2020, 2021]
      [⟨"A", ⟨2020, 1, 5⟩⟩, ⟨"B", ⟨2020, 7, 9⟩⟩] = .ok [0, 2, 2] :=
  claim_C8_duplicate_years "A" "B" ⟨2020, 1, 5⟩ ⟨2020, 7, 9⟩ rfl rfl

/-- C9: the stacked series of `main` are element-wise sums of the
per-category cumulative series, and the three per-category series have
identical length. -/
theorem claim_C9_stacked_sums :
    triatomics_by_year.length = diatomics_by_year.length ∧
    polyatomics_by_year.length = diatomics_by_year.length ∧
    ∀ i, i < diatomics_by_year.length →
      di_and_tri_by_year.getD i 0 =
        diatomics_by_year.getD i 0 + triatomics_by_year.getD i 0 ∧
      all_by_year.getD i 0 =
        diatomics_by_year.getD i 0 + triatomics_by_year.getD i 0 +
          polyatomics_by_year.getD i 0 := by
  rw [diatomics_by_year_eval, triatomics_by_year_eval, polyatomics_by_year_eval,
    di_and_tri_by_year_eval, all_by_year_eval]
  decide

theorem claim_C9_witness :
    di_and_tri_by_year.getD 0 0 =
      diatomics_by_year.getD 0 0 + triatomics_by_year.getD 0 0 ∧
    all_by_year.getD 0 0 =
      diatomics_by_year.getD 0 0 + triatomics_by_year.getD 0 0 +
        polyatomics_by_year.getD 0 0 :=
  claim_C9_stacked_sums.2.2 0 (by rw [diatomics_by_year_eval]; decide)

/-- C10: in `main`, `years` is `arange(min(timeline)-1, max(timeline)+2)`,
so it starts one year before the earliest record and ends one year after the
latest; consequently each of the three `accumulate_by_year` calls returns
normally (the exhaustion error is unreachable), each series starts at 0 and
each ends at its category's record count. -/
theorem claim_C10_main_year_range_safe :
    years = arange (listMin timeline - 1) (listMax timeline + 2) ∧
    years.head? = some (listMin timeline - 1) ∧
    years.getLast? = some (listMax timeline + 1) ∧
    accumulate_by_year years diatomics = .ok diatomics_by_year ∧
    accumulate_by_year years triatomics = .ok triatomics_by_year ∧
    accumulate_by_year years polyatomics = .ok polyatomics_by_year ∧
    diatomics_by_year.head? = some 0 ∧
    triatomics_by_year.head? = some 0 ∧
    polyatomics_by_year.head? = some 0 ∧
    diatomics_by_year.getLast? = some diatomics.length ∧
    triatomics_by_year.getLast? = some triatomics.length ∧
    polyatomics_by_year.getLast? = some polyatomics.length := by
  refine ⟨rfl, ?_, ?_, ?_, ?_, ?_, ?_, ?_, ?_, ?_, ?_, ?_⟩
  · rw [years_eval]; decide
  · rw [years_eval]; decide
  · rw [diatomics_acc_eval, diatomics_by_year_eval]
  · rw [triatomics_acc_eval, triatomics_by_year_eval]
  · rw [polyatomics_acc_eval, polyatomics_by_year_eval]
  · rw [diatomics_by_year_eval]; decide
  · rw [triatomics_by_year_eval]; decide
  · rw [polyatomics_by_year_eval]; decide
  · rw [diatomics_by_year_eval]; decide
  · rw [triatomics_by_year_eval]; decide
  · rw [polyatomics_by_year_eval]; decide
